import Mathlib

/-!
Verification development for the authorization-grant query façade
(`x/authz/keeper/grpc_query.go`).

The three gRPC query handlers (`Grants`, `IssuedGrants`, `ReceivedGrants`)
are translated directly from the Go source.  Their collaborators
(`grantStoreKey`, `addressesFromGrantStoreKey`, `GetCleanAuthorization`,
`FilteredPaginate`, the record codec and the address codec) are code of the
same repository that is not part of the provided sources; those are
modelled from the specification, as marked in their doc comments.

Machine-level conventions of the model:
* a store key and an address are lists of natural numbers (byte strings);
* a store is an association list of key/value pairs, kept in ascending key
  order by the writer (hypothesised where a proof needs it);
* a store value is either a decodable `Grant` record or a corrupt byte
  string, which is all the record codec of the spec distinguishes;
* time is a natural number (the query's reference time / block time).
-/

abbrev Addr := List Nat

abbrev StoreKey := List Nat

/-- An authorization payload: a kind-tagged polymorphic value.  The model
keeps only the kind tag, which is all the query façade inspects. -/
structure Authorization where
  typeUrl : String
deriving DecidableEq, Inhabited

/-- A stored grant record: authorization payload plus optional absolute
expiration time (`none` = never expires). -/
structure Grant where
  authorization : Authorization
  expiration : Option Nat
deriving DecidableEq, Inhabited

/-- Modelled from the spec: the byte string stored under a grant key.  The
record codec (spec §4.2, external to the provided sources) either
round-trips a structurally valid record or fails with a decode error, so a
value is modelled as a decodable `Grant` or an undecodable byte string. -/
inductive StoreValue where
  | good (g : Grant)
  | corrupt
deriving DecidableEq

abbrev Store := List (StoreKey × StoreValue)

/-- Error kinds surfaced by the query façade (spec §7).  `bech32Failure` is
the raw error of the external address codec, which the handlers return
unchanged (`return nil, err` in the source); `decodeFailure` is the raw
error of the record codec. -/
inductive QueryError where
  | invalidArgument (msg : String)
  | notFound (msg : String)
  | internal (msg : String)
  | decodeFailure (msg : String)
  | bech32Failure (msg : String)
deriving DecidableEq

/-- Bytes of a message-type identifier (the raw string suffix of a grant
key, spec §4.1). -/
def strBytes (s : String) : List Nat :=
  s.data.map Char.toNat

/-- Modelled from the spec: length-prefixing of one variable-length address
component (spec §4.1, §3).  A non-empty component is emitted as one length
byte followed by the component's bytes; an empty (zero-length) component
contributes no bytes, which is what lets an empty `grantee` or `granter`
"build a scanning prefix" (spec §4.1) and lets a fixed `grantee` with empty
`granter` prefix-match all grants received by that grantee (spec §3). -/
def lengthPrefixed (a : Addr) : List Nat :=
  if a.isEmpty then [] else a.length :: a

/-- Modelled from the spec: `encode(grantee, granter, msgType)` of the
GrantKey codec (spec §4.1) — the length-prefixed grantee, then the
length-prefixed granter, then the raw msgType bytes.  This is the
`grantStoreKey` helper used by the query façade. -/
def grantStoreKey (grantee granter : Addr) (msgType : String) : StoreKey :=
  lengthPrefixed grantee ++ lengthPrefixed granter ++ strBytes msgType

/-- Modelled from the spec: `decode(bytes) -> (grantee, granter)` of the
GrantKey codec (spec §4.1), reading the two length-prefixed address fields
from the front of a key encountered during a scan. -/
def addressesFromGrantStoreKey (key : StoreKey) : Addr × Addr :=
  match key with
  | [] => ([], [])
  | granteeLen :: rest =>
    let grantee := rest.take granteeLen
    match rest.drop granteeLen with
    | [] => (grantee, [])
    | granterLen :: rest2 => (grantee, rest2.take granterLen)

/-- Character set of the modelled human-readable address encoding. -/
def validAddrChar (c : Char) : Bool :=
  c.isLower || c.isDigit

/-- Modelled from the spec: the external address codec (spec §6) parses a
human-readable address string to raw bytes and rejects a malformed string.
The model accepts a non-empty string of lowercase letters and digits (the
bech32 alphabet shape) and takes its character codes as the raw bytes; the
failure is the codec's own parse error, not a gRPC status. -/
def AccAddressFromBech32 (s : String) : Except QueryError Addr :=
  if s.isEmpty then .error (.bech32Failure "empty address string is not allowed")
  else if s.data.all validAddrChar then .ok (s.data.map Char.toNat)
  else .error (.bech32Failure "decoding bech32 failed")

/-- Modelled from the spec: formatting an address back to its
human-readable string form (spec §6), the inverse of parsing. -/
def addrToString (a : Addr) : String :=
  ⟨a.map Char.ofNat⟩

/-- Modelled from the spec: the `get` capability of the ordered key-value
store (spec §9), a read-only point lookup. -/
def kvGet (st : Store) (k : StoreKey) : Option StoreValue :=
  match st.find? (fun e => e.1 == k) with
  | some e => some e.2
  | none => none

/-- Modelled from the spec: the `iterate-with-prefix` capability of the
store (spec §9) — the entries whose key begins with the given prefix, in
store order.  Keys are yielded in full, as spec §4.1's decode expects to
read both length-prefixed address fields from a scanned key. -/
def prefixEntries (st : Store) (pfx : StoreKey) : Store :=
  st.filter (fun e => pfx.isPrefixOf e.1)

/-- The record codec's unmarshal, as wrapped by `unmarshalAuthorization` in
the source: decode a store value into a `Grant`, failing on a corrupt
value. -/
def unmarshalAuthorization (v : StoreValue) : Except QueryError Grant :=
  match v with
  | .good g => .ok g
  | .corrupt => .error (.decodeFailure "unmarshal failed")

/-- Modelled from the spec: the expiration-aware point lookup (spec §4.3).
Look up the exact key; if absent return not-found; if present and the
record decodes, treat a grant whose expiration is set and is not after the
reference time as not-found; otherwise return the payload and expiration. -/
def GetCleanAuthorization (st : Store) (now : Nat) (grantee granter : Addr)
    (msgType : String) : Option (Authorization × Option Nat) :=
  match kvGet st (grantStoreKey grantee granter msgType) with
  | none => none
  | some v =>
    match unmarshalAuthorization v with
    | .error _ => none
    | .ok g =>
      match g.expiration with
      | none => some (g.authorization, none)
      | some e => if e ≤ now then none else some (g.authorization, some e)

/-- A pagination request (spec §6): optional cursor key (`[]` = absent),
optional limit (`0` = absent, a default is applied), count-total and
reverse flags. -/
structure PageRequest where
  key : StoreKey
  limit : Nat
  countTotal : Bool
  reverse : Bool
deriving DecidableEq

/-- A pagination response (spec §6): continuation cursor (`[]` =
exhausted) and, when requested, the total number of entries in scope. -/
structure PageResponse where
  nextKey : StoreKey
  total : Option Nat
deriving DecidableEq

/-- Default page limit applied when a request leaves the limit unset. -/
def defaultLimit : Nat := 100

/-- Strict lexicographic byte-string order on store keys, the iteration
order of the ordered store. -/
def keyLtb : StoreKey → StoreKey → Bool
  | [], [] => false
  | [], _ :: _ => true
  | _ :: _, [] => false
  | a :: as, b :: bs => if a < b then true else if b < a then false else keyLtb as bs

/-- Modelled from the spec: the scope of one paginated scan (spec §4.4) —
the prefix-store entries in iteration order (ascending unless `reverse`),
resuming at the cursor key when one is given. -/
def scopedEntries (entries : Store) (pr : PageRequest) : Store :=
  let ordered := if pr.reverse then entries.reverse else entries
  if pr.key.isEmpty then ordered
  else if pr.reverse then ordered.dropWhile (fun e => keyLtb pr.key e.1)
  else ordered.dropWhile (fun e => keyLtb e.1 pr.key)

/-- Accumulation phase of the pagination engine: visit entries in order,
invoking the callback with `accumulate = true`, until `remaining` accepted
hits are collected or the scope is exhausted.  Returns the accumulated
items, the continuation cursor (the key immediately following the last
visited entry, `[]` if exhausted) and the unvisited remainder. -/
def fpCollect {A : Type} (onResult : StoreKey → StoreValue → Bool → Except QueryError (Bool × Option A)) :
    Nat → Store → Except QueryError (List A × StoreKey × Store)
  | _, [] => .ok ([], [], [])
  | 0, e :: rest => .ok ([], e.1, e :: rest)
  | remaining + 1, (k, v) :: rest =>
    match onResult k v true with
    | .error err => .error err
    | .ok (hit, item) =>
      match fpCollect onResult (if hit then remaining else remaining + 1) rest with
      | .error err => .error err
      | .ok (items, nextKey, rem) => .ok (item.toList ++ items, nextKey, rem)

/-- Counting phase of the pagination engine, used when a total is
requested: keep visiting the remaining entries with `accumulate = false`
(the visit/accumulate decoupling of spec §4.4), propagating any callback
error. -/
def fpCount {A : Type} (onResult : StoreKey → StoreValue → Bool → Except QueryError (Bool × Option A)) :
    Store → Except QueryError Nat
  | [] => .ok 0
  | (k, v) :: rest =>
    match onResult k v false with
    | .error err => .error err
    | .ok _ =>
      match fpCount onResult rest with
      | .error err => .error err
      | .ok n => .ok (n + 1)

/-- Modelled from the spec: the filtered pagination engine (spec §4.4).
Iterate the scope in key order from the cursor, invoking the caller's
callback on every visited entry; stop accumulating at the limit; produce
the continuation cursor and, when requested, the total number of entries in
scope; abort the whole scan on a callback error, returning no page. -/
def FilteredPaginate {A : Type} (onResult : StoreKey → StoreValue → Bool → Except QueryError (Bool × Option A))
    (entries : Store) (req : Option PageRequest) :
    Except QueryError (List A × PageResponse) :=
  let pr := req.getD ⟨[], 0, false, false⟩
  let limit := if pr.limit = 0 then defaultLimit else pr.limit
  let scope := scopedEntries entries pr
  match fpCollect onResult limit scope with
  | .error err => .error err
  | .ok (items, nextKey, rem) =>
    if pr.countTotal then
      match fpCount onResult rem with
      | .error err => .error err
      | .ok _ => .ok (items, ⟨nextKey, some scope.length⟩)
    else .ok (items, ⟨nextKey, none⟩)

/-- The entries a paginated scan actually visits (and therefore decodes):
the whole scope when a total is requested, otherwise the scope up to the
page limit. -/
def visitedEntries (entries : Store) (req : Option PageRequest) : Store :=
  let pr := req.getD ⟨[], 0, false, false⟩
  let limit := if pr.limit = 0 then defaultLimit else pr.limit
  let scope := scopedEntries entries pr
  if pr.countTotal then scope else scope.take limit

/-- A grant as returned by the `Grants` scan path (`authz.Grant`). -/
structure GrantView where
  authorization : Authorization
  expiration : Option Nat
deriving DecidableEq, Inhabited

/-- A grant as returned by `IssuedGrants`/`ReceivedGrants`
(`authz.GrantAuthorization`): the record plus the granter and grantee
recovered from the scanned key. -/
structure GrantAuthorizationView where
  authorization : Authorization
  expiration : Option Nat
  granter : String
  grantee : String
deriving DecidableEq, Inhabited

structure QueryGrantsRequest where
  granter : String
  grantee : String
  msgTypeUrl : String
  pagination : Option PageRequest
deriving DecidableEq

structure QueryGrantsResponse where
  grants : List GrantView
  pagination : Option PageResponse
deriving DecidableEq

structure QueryIssuedGrantsRequest where
  granter : String
  pagination : Option PageRequest
deriving DecidableEq

structure QueryIssuedGrantsResponse where
  grants : List GrantAuthorizationView
  pagination : Option PageResponse
deriving DecidableEq

structure QueryReceivedGrantsRequest where
  grantee : String
  pagination : Option PageRequest
deriving DecidableEq

structure QueryReceivedGrantsResponse where
  grants : List GrantAuthorizationView
  pagination : Option PageResponse
deriving DecidableEq

/-- The scan callback of `Grants` (grpc_query.go lines 60–82): unmarshal
the record first; on the accumulate pass wrap it as a `GrantView`; always
report a hit on success. -/
def grantsOnResult (_k : StoreKey) (v : StoreValue) (accumulate : Bool) :
    Except QueryError (Bool × Option GrantView) :=
  match unmarshalAuthorization v with
  | .error err => .error err
  | .ok g =>
    if accumulate then .ok (true, some ⟨g.authorization, g.expiration⟩)
    else .ok (true, none)

/-- The scan callback of `IssuedGrants`/`ReceivedGrants` (grpc_query.go
lines 109–132 and 160–183): unmarshal the record first; on the accumulate
pass recover the addresses from the scanned key and wrap everything as a
`GrantAuthorizationView`; always report a hit on success. -/
def grantAuthOnResult (k : StoreKey) (v : StoreValue) (accumulate : Bool) :
    Except QueryError (Bool × Option GrantAuthorizationView) :=
  match unmarshalAuthorization v with
  | .error err => .error err
  | .ok g =>
    if accumulate then
      let (grantee, granter) := addressesFromGrantStoreKey k
      .ok (true, some ⟨g.authorization, g.expiration, addrToString granter, addrToString grantee⟩)
    else .ok (true, none)

/-- The `Grants` handler (grpc_query.go lines 22–91), in store-passing
form: the second component is the store the call leaves behind.  A null
request is rejected as InvalidArgument; address parse errors are returned
unchanged; with a non-empty `MsgTypeUrl` the expiration-aware lookup is
used and its miss is a NotFound; otherwise the `(grantee, granter)` prefix
is scanned through the pagination engine with no expiration filtering. -/
def GrantsRun (st : Store) (now : Nat) (req : Option QueryGrantsRequest) :
    Except QueryError QueryGrantsResponse × Store :=
  match req with
  | none => (.error (.invalidArgument "empty request"), st)
  | some r =>
    match AccAddressFromBech32 r.granter with
    | .error err => (.error err, st)
    | .ok granter =>
      match AccAddressFromBech32 r.grantee with
      | .error err => (.error err, st)
      | .ok grantee =>
        let key := grantStoreKey grantee granter ""
        if r.msgTypeUrl ≠ "" then
          match GetCleanAuthorization st now grantee granter r.msgTypeUrl with
          | none => (.error (.notFound ("no authorization found for " ++ r.msgTypeUrl ++ " type")), st)
          | some (auth, exp) => (.ok ⟨[⟨auth, exp⟩], none⟩, st)
        else
          match FilteredPaginate grantsOnResult (prefixEntries st key) r.pagination with
          | .error err => (.error err, st)
          | .ok (items, pageRes) => (.ok ⟨items, some pageRes⟩, st)

/-- The `IssuedGrants` handler (grpc_query.go lines 94–142), in
store-passing form: reject a null request, parse the granter, then scan the
prefix `grantStoreKey(nil, granter, "")` through the pagination engine,
recovering addresses from each scanned key. -/
def IssuedGrantsRun (st : Store) (req : Option QueryIssuedGrantsRequest) :
    Except QueryError QueryIssuedGrantsResponse × Store :=
  match req with
  | none => (.error (.invalidArgument "empty request"), st)
  | some r =>
    match AccAddressFromBech32 r.granter with
    | .error err => (.error err, st)
    | .ok granter =>
      match FilteredPaginate grantAuthOnResult (prefixEntries st (grantStoreKey [] granter "")) r.pagination with
      | .error err => (.error err, st)
      | .ok (items, pageRes) => (.ok ⟨items, some pageRes⟩, st)

/-- The `ReceivedGrants` handler (grpc_query.go lines 145–193), in
store-passing form: reject a null request, parse the grantee, then scan the
prefix `grantStoreKey(grantee, nil, "")` through the pagination engine,
recovering addresses from each scanned key. -/
def ReceivedGrantsRun (st : Store) (req : Option QueryReceivedGrantsRequest) :
    Except QueryError QueryReceivedGrantsResponse × Store :=
  match req with
  | none => (.error (.invalidArgument "empty request"), st)
  | some r =>
    match AccAddressFromBech32 r.grantee with
    | .error err => (.error err, st)
    | .ok grantee =>
      match FilteredPaginate grantAuthOnResult (prefixEntries st (grantStoreKey grantee [] "")) r.pagination with
      | .error err => (.error err, st)
      | .ok (items, pageRes) => (.ok ⟨items, some pageRes⟩, st)

/-- Result of the `Grants` handler. -/
def Grants (st : Store) (now : Nat) (req : Option QueryGrantsRequest) :
    Except QueryError QueryGrantsResponse :=
  (GrantsRun st now req).1

/-- Result of the `IssuedGrants` handler. -/
def IssuedGrants (st : Store) (req : Option QueryIssuedGrantsRequest) :
    Except QueryError QueryIssuedGrantsResponse :=
  (IssuedGrantsRun st req).1

/-- Result of the `ReceivedGrants` handler. -/
def ReceivedGrants (st : Store) (req : Option QueryReceivedGrantsRequest) :
    Except QueryError QueryReceivedGrantsResponse :=
  (ReceivedGrantsRun st req).1

/-- True when a query result is the InvalidArgument error kind. -/
def isInvalidArgumentError {A : Type} : Except QueryError A → Bool
  | .error (.invalidArgument _) => true
  | _ => false

/-- True when a store value fails to deserialize. -/
def isDecodeFail (v : StoreValue) : Bool :=
  match unmarshalAuthorization v with
  | .error _ => true
  | .ok _ => false

/-- The page item the `Grants` scan produces for one decodable entry. -/
def grantViewOf (en : StoreKey × StoreValue) : GrantView :=
  match unmarshalAuthorization en.2 with
  | .ok g => ⟨g.authorization, g.expiration⟩
  | .error _ => default

/-- The page item the `IssuedGrants`/`ReceivedGrants` scans produce for one
decodable entry: the record plus the addresses recovered from the key. -/
def grantAuthViewOf (en : StoreKey × StoreValue) : GrantAuthorizationView :=
  match unmarshalAuthorization en.2 with
  | .ok g =>
    let (grantee, granter) := addressesFromGrantStoreKey en.1
    ⟨g.authorization, g.expiration, addrToString granter, addrToString grantee⟩
  | .error _ => default

/-- Repeated cursor-following at the engine level: request pages of limit 1
from the given cursor, feeding each response's continuation cursor into the
next request, concatenating the pages. -/
def pageWalk {A : Type} (onResult : StoreKey → StoreValue → Bool → Except QueryError (Bool × Option A))
    (entries : Store) : Nat → StoreKey → Except QueryError (List A)
  | 0, _ => .ok []
  | fuel + 1, cursor =>
    match FilteredPaginate onResult entries (some ⟨cursor, 1, false, false⟩) with
    | .error err => .error err
    | .ok (items, resp) =>
      if resp.nextKey.isEmpty then .ok items
      else
        match pageWalk onResult entries fuel resp.nextKey with
        | .error err => .error err
        | .ok more => .ok (items ++ more)

/-- Repeated cursor-following against the `Grants` scan path: issue
limit-1 requests, passing each response's next-key as the next request's
cursor, and concatenate the returned pages in order. -/
def GrantsPagesAux (st : Store) (now : Nat) (granter grantee : String) :
    Nat → StoreKey → Except QueryError (List GrantView)
  | 0, _ => .ok []
  | fuel + 1, cursor =>
    match Grants st now (some ⟨granter, grantee, "", some ⟨cursor, 1, false, false⟩⟩) with
    | .error err => .error err
    | .ok resp =>
      match resp.pagination with
      | none => .ok resp.grants
      | some p =>
        if p.nextKey.isEmpty then .ok resp.grants
        else
          match GrantsPagesAux st now granter grantee fuel p.nextKey with
          | .error err => .error err
          | .ok more => .ok (resp.grants ++ more)

/-- All grants of the `Grants` scan path collected by limit-1 pages. -/
def GrantsPages (st : Store) (now : Nat) (granter grantee : String) :
    Except QueryError (List GrantView) :=
  GrantsPagesAux st now granter grantee (st.length + 1) []

/-- All grants of the `Grants` scan path from one unbounded scan (a limit
larger than the whole store). -/
def GrantsFull (st : Store) (now : Nat) (granter grantee : String) :
    Except QueryError (List GrantView) :=
  match Grants st now (some ⟨granter, grantee, "", some ⟨[], st.length + 1, false, false⟩⟩) with
  | .error err => .error err
  | .ok resp => .ok resp.grants

/-- Repeated cursor-following against `IssuedGrants`, as in
`GrantsPagesAux`. -/
def IssuedGrantsPagesAux (st : Store) (granter : String) :
    Nat → StoreKey → Except QueryError (List GrantAuthorizationView)
  | 0, _ => .ok []
  | fuel + 1, cursor =>
    match IssuedGrants st (some ⟨granter, some ⟨cursor, 1, false, false⟩⟩) with
    | .error err => .error err
    | .ok resp =>
      match resp.pagination with
      | none => .ok resp.grants
      | some p =>
        if p.nextKey.isEmpty then .ok resp.grants
        else
          match IssuedGrantsPagesAux st granter fuel p.nextKey with
          | .error err => .error err
          | .ok more => .ok (resp.grants ++ more)

/-- All grants of `IssuedGrants` collected by limit-1 pages. -/
def IssuedGrantsPages (st : Store) (granter : String) :
    Except QueryError (List GrantAuthorizationView) :=
  IssuedGrantsPagesAux st granter (st.length + 1) []

/-- All grants of `IssuedGrants` from one unbounded scan. -/
def IssuedGrantsFull (st : Store) (granter : String) :
    Except QueryError (List GrantAuthorizationView) :=
  match IssuedGrants st (some ⟨granter, some ⟨[], st.length + 1, false, false⟩⟩) with
  | .error err => .error err
  | .ok resp => .ok resp.grants

/-- Repeated cursor-following against `ReceivedGrants`, as in
`GrantsPagesAux`. -/
def ReceivedGrantsPagesAux (st : Store) (grantee : String) :
    Nat → StoreKey → Except QueryError (List GrantAuthorizationView)
  | 0, _ => .ok []
  | fuel + 1, cursor =>
    match ReceivedGrants st (some ⟨grantee, some ⟨cursor, 1, false, false⟩⟩) with
    | .error err => .error err
    | .ok resp =>
      match resp.pagination with
      | none => .ok resp.grants
      | some p =>
        if p.nextKey.isEmpty then .ok resp.grants
        else
          match ReceivedGrantsPagesAux st grantee fuel p.nextKey with
          | .error err => .error err
          | .ok more => .ok (resp.grants ++ more)

/-- All grants of `ReceivedGrants` collected by limit-1 pages. -/
def ReceivedGrantsPages (st : Store) (grantee : String) :
    Except QueryError (List GrantAuthorizationView) :=
  ReceivedGrantsPagesAux st grantee (st.length + 1) []

/-- All grants of `ReceivedGrants` from one unbounded scan. -/
def ReceivedGrantsFull (st : Store) (grantee : String) :
    Except QueryError (List GrantAuthorizationView) :=
  match ReceivedGrants st (some ⟨grantee, some ⟨[], st.length + 1, false, false⟩⟩) with
  | .error err => .error err
  | .ok resp => .ok resp.grants

/-- C1: evaluation of the grant-key codec at the failing input.  The
claim says the prefix built by `IssuedGrants` with the grantee empty
matches exactly the keys of grants issued by that granter.  In fact,
because an empty component contributes no bytes, `grantStoreKey([], R, "")`
coincides byte-for-byte with a grantee prefix: the key of a grant issued by
granter `[98]` to grantee `[97]` is not under it, while the key of a grant
issued by `[99]` to grantee `[98]` is.  The `ReceivedGrants` prefix behaves
as the claim states on the same inputs. -/
theorem grantStoreKey_issued_scan_mismatch :
    (grantStoreKey [] [98] "").isPrefixOf (grantStoreKey [97] [98] "m") = false
    ∧ (grantStoreKey [] [98] "").isPrefixOf (grantStoreKey [98] [99] "m") = true
    ∧ (grantStoreKey [97] [] "").isPrefixOf (grantStoreKey [97] [98] "m") = true
    ∧ (grantStoreKey [97] [] "").isPrefixOf (grantStoreKey [98] [99] "m") = false := by
  decide

/-- C3: evaluation of the handlers at the failing input.  The claim says
a stored grant `(grantee G, granter R, type T)` appears exactly once in
`IssuedGrants(R)`.  With the single grant `(grantee [97] "a",
granter [98] "b", type "m")` in the store, `IssuedGrants("b")` returns an
empty page (the grant appears zero times), because the issued-grants
prefix occupies the grantee position of the key; `ReceivedGrants("a")`
does return it exactly once with the correct fields attached. -/
theorem issuedGrants_misses_issued_grant :
    IssuedGrants [(grantStoreKey [97] [98] "m", .good ⟨⟨"mauth"⟩, none⟩)] (some ⟨"b", none⟩)
      = .ok ⟨[], some ⟨[], none⟩⟩
    ∧ ReceivedGrants [(grantStoreKey [97] [98] "m", .good ⟨⟨"mauth"⟩, none⟩)] (some ⟨"a", none⟩)
      = .ok ⟨[⟨⟨"mauth"⟩, none, "b", "a"⟩], some ⟨[], none⟩⟩ := by
  constructor
  · rfl
  · rfl

/-- C8: every operation of the query façade is read-only.  For every
request and store state, the store each handler leaves behind (the second
component of its store-passing form) equals the store it was given; the
handlers hold no state of their own beyond the store parameter. -/
theorem queries_read_only : ∀ (st : Store) (now : Nat) (reqG : Option QueryGrantsRequest)
    (reqI : Option QueryIssuedGrantsRequest) (reqR : Option QueryReceivedGrantsRequest),
    (GrantsRun st now reqG).2 = st ∧ (IssuedGrantsRun st reqI).2 = st
    ∧ (ReceivedGrantsRun st reqR).2 = st := by
  intro st now reqG reqI reqR
  refine ⟨?_, ?_, ?_⟩
  · unfold GrantsRun
    dsimp only
    repeat' split <;> try rfl
  · unfold IssuedGrantsRun
    repeat' split <;> try rfl
  · unfold ReceivedGrantsRun
    repeat' split <;> try rfl

/-- C6: key round-trip.  For all valid (non-empty, length at most 255)
address byte strings `a` and `b` and every type string `t`, decoding the
encoded grant key recovers both addresses exactly: the grantee of
`decode(encode(a, b, t))` is `a` and the granter is `b`. -/
theorem grantStoreKey_roundTrip : ∀ (a b : Addr) (t : String),
    a ≠ [] → b ≠ [] → a.length ≤ 255 → b.length ≤ 255 →
    addressesFromGrantStoreKey (grantStoreKey a b t) = (a, b) := by
  intro a b t ha hb _ _
  have ha' : a.isEmpty = false := by
    cases a with
    | nil => exact absurd rfl ha
    | cons x xs => rfl
  have hb' : b.isEmpty = false := by
    cases b with
    | nil => exact absurd rfl hb
    | cons x xs => rfl
  simp only [grantStoreKey, lengthPrefixed, ha', hb', if_neg, Bool.false_eq_true,
    ite_false]
  simp only [List.cons_append, List.append_assoc]
  simp only [addressesFromGrantStoreKey]
  rw [List.take_left' rfl, List.drop_left' rfl]
  simp [List.take_left' rfl]

/-- C5 (amended): each of `Grants`, `IssuedGrants` and `ReceivedGrants`
returns an InvalidArgument error when the request is null; when an address
string fails to parse, each returns the address codec's parse error
unchanged (not an InvalidArgument status).  In both cases the result is
the same for every store state, so the error is produced before any store
access and no other work is performed. -/
theorem request_validation_errors : ∀ (st : Store) (now : Nat) (r : QueryGrantsRequest)
    (ri : QueryIssuedGrantsRequest) (rr : QueryReceivedGrantsRequest) (e1 e2 e3 e4 : QueryError),
    (Grants st now none = .error (.invalidArgument "empty request")
      ∧ IssuedGrants st none = .error (.invalidArgument "empty request")
      ∧ ReceivedGrants st none = .error (.invalidArgument "empty request"))
    ∧ (AccAddressFromBech32 r.granter = .error e1 → Grants st now (some r) = .error e1)
    ∧ (∀ a : Addr, AccAddressFromBech32 r.granter = .ok a →
        AccAddressFromBech32 r.grantee = .error e2 → Grants st now (some r) = .error e2)
    ∧ (AccAddressFromBech32 ri.granter = .error e3 → IssuedGrants st (some ri) = .error e3)
    ∧ (AccAddressFromBech32 rr.grantee = .error e4 → ReceivedGrants st (some rr) = .error e4) := by
  intro st now r ri rr e1 e2 e3 e4
  refine ⟨⟨rfl, rfl, rfl⟩, ?_, ?_, ?_, ?_⟩
  · intro h
    simp only [Grants, GrantsRun, h]
  · intro a h1 h2
    simp only [Grants, GrantsRun, h1, h2]
  · intro h
    simp only [IssuedGrants, IssuedGrantsRun, h]
  · intro h
    simp only [ReceivedGrants, ReceivedGrantsRun, h]

/-- C5 counterexample: with a granter string that fails to parse, `Grants`
does not return an InvalidArgument error as the claim states — it returns
the address codec's parse failure unchanged (the handler's
`return nil, err`). -/
theorem address_parse_error_not_invalid_argument :
    Grants [(grantStoreKey [97] [98] "m", .good ⟨⟨"mauth"⟩, none⟩)] 0
        (some ⟨"GRANTER!", "a", "m", none⟩)
      = .error (.bech32Failure "decoding bech32 failed")
    ∧ isInvalidArgumentError (Grants [(grantStoreKey [97] [98] "m", .good ⟨⟨"mauth"⟩, none⟩)] 0
        (some ⟨"GRANTER!", "a", "m", none⟩)) = false := by
  constructor
  · rfl
  · rfl

/-- C9: when `MsgTypeUrl` is non-empty, the `Grants` response is
completely independent of the request's pagination field, and any
successful response on this path contains exactly one grant and no page
response (no next-key and no total). -/
theorem exact_match_ignores_pagination : ∀ (st : Store) (now : Nat) (r : QueryGrantsRequest) (p' : Option PageRequest),
    r.msgTypeUrl ≠ "" →
    Grants st now (some { r with pagination := p' }) = Grants st now (some r)
    ∧ (∀ resp, Grants st now (some r) = .ok resp →
        resp.grants.length = 1 ∧ resp.pagination = none) := by
  intro st now r p' hm
  have hsame : ∀ p : Option PageRequest,
      Grants st now (some { r with pagination := p }) =
        match AccAddressFromBech32 r.granter with
        | .error err => .error err
        | .ok granter =>
          match AccAddressFromBech32 r.grantee with
          | .error err => .error err
          | .ok grantee =>
            match GetCleanAuthorization st now grantee granter r.msgTypeUrl with
            | none => .error (.notFound ("no authorization found for " ++ r.msgTypeUrl ++ " type"))
            | some (auth, exp) => .ok ⟨[⟨auth, exp⟩], none⟩ := by
    intro p
    simp only [Grants, GrantsRun]
    cases AccAddressFromBech32 r.granter with
    | error err => rfl
    | ok granter =>
      cases AccAddressFromBech32 r.grantee with
      | error err => rfl
      | ok grantee =>
        simp only [if_pos hm]
        cases GetCleanAuthorization st now grantee granter r.msgTypeUrl with
        | none => rfl
        | some p2 => rfl
  constructor
  · have h2 := hsame p'
    have h3 := hsame r.pagination
    rw [h2, h3]
  · intro resp hok
    have h3 := hsame r.pagination
    have : { r with pagination := r.pagination } = r := rfl
    rw [this] at h3
    rw [h3] at hok
    cases h1 : AccAddressFromBech32 r.granter with
    | error err => rw [h1] at hok; cases hok
    | ok granter =>
      rw [h1] at hok
      cases h2 : AccAddressFromBech32 r.grantee with
      | error err => rw [h2] at hok; cases hok
      | ok grantee =>
        rw [h2] at hok
        dsimp only at hok
        cases h4 : GetCleanAuthorization st now grantee granter r.msgTypeUrl with
        | none => rw [h4] at hok; cases hok
        | some p2 =>
          rw [h4] at hok
          cases hok
          exact ⟨rfl, rfl⟩

theorem keyLtb_irrefl : ∀ k : StoreKey, keyLtb k k = false := by
  intro k
  induction k with
  | nil => rfl
  | cons a as ih => simp [keyLtb, ih]

theorem dropWhile_suffix_exists {α : Type} (p : α → Bool) :
    ∀ l : List α, ∃ pre : List α, l = pre ++ l.dropWhile p := by
  intro l
  induction l with
  | nil => exact ⟨[], rfl⟩
  | cons a as ih =>
    by_cases h : p a = true
    · obtain ⟨pre, hpre⟩ := ih
      exact ⟨a :: pre, by simp [List.dropWhile_cons, h, ← hpre]⟩
    · exact ⟨[], by simp [List.dropWhile_cons, h]⟩

theorem dropWhile_of_sorted (x : StoreKey × StoreValue) (r : Store) :
    ∀ pre : Store,
    List.Pairwise (fun a b => keyLtb a.1 b.1 = true) (pre ++ x :: r) →
    (pre ++ x :: r).dropWhile (fun e => keyLtb e.1 x.1) = x :: r := by
  intro pre
  induction pre with
  | nil =>
    intro _
    simp [List.dropWhile_cons, keyLtb_irrefl]
  | cons p ps ih =>
    intro hp
    rw [List.cons_append, List.pairwise_cons] at hp
    have hrel : keyLtb p.1 x.1 = true := hp.1 x (by simp)
    simp only [List.cons_append, List.dropWhile_cons, hrel, if_true]
    exact ih hp.2

theorem fpCollect_err {A : Type}
    (onResult : StoreKey → StoreValue → Bool → Except QueryError (Bool × Option A))
    (Herr : ∀ k v acc, isDecodeFail v = true → ∃ e, onResult k v acc = Except.error e)
    (Hhit : ∀ k v hit item, onResult k v true = Except.ok (hit, item) → hit = true) :
    ∀ (l : Store) (n : Nat), (∃ en ∈ l.take n, isDecodeFail en.2 = true) →
    ∃ e, fpCollect onResult n l = Except.error e := by
  intro l
  induction l with
  | nil =>
    intro n hbad
    simp at hbad
  | cons en rest ih =>
    intro n hbad
    cases n with
    | zero => simp at hbad
    | succ m =>
      obtain ⟨bad, hmem, hfail⟩ := hbad
      rw [List.take_succ_cons] at hmem
      by_cases hhead : isDecodeFail en.2 = true
      · obtain ⟨e, he⟩ := Herr en.1 en.2 true hhead
        refine ⟨e, ?_⟩
        simp only [fpCollect]
        rw [he]
      · cases hres : onResult en.1 en.2 true with
        | error e =>
          refine ⟨e, ?_⟩
          simp only [fpCollect]
          rw [hres]
        | ok pr2 =>
          obtain ⟨hit, item⟩ := pr2
          have hhit : hit = true := Hhit en.1 en.2 hit item hres
          subst hhit
          have hbadrest : bad ∈ rest.take m := by
            cases hmem with
            | head => exact absurd hfail hhead
            | tail _ h => exact h
          obtain ⟨e, he⟩ := ih m ⟨bad, hbadrest, hfail⟩
          refine ⟨e, ?_⟩
          simp only [fpCollect]
          rw [hres]
          simp only [if_true]
          rw [he]

theorem fpCount_err {A : Type}
    (onResult : StoreKey → StoreValue → Bool → Except QueryError (Bool × Option A))
    (Herr : ∀ k v acc, isDecodeFail v = true → ∃ e, onResult k v acc = Except.error e) :
    ∀ l : Store, (∃ en ∈ l, isDecodeFail en.2 = true) →
    ∃ e, fpCount onResult l = Except.error e := by
  intro l
  induction l with
  | nil => intro h; simp at h
  | cons en rest ih =>
    intro hbad
    obtain ⟨bad, hmem, hfail⟩ := hbad
    by_cases hhead : isDecodeFail en.2 = true
    · obtain ⟨e, he⟩ := Herr en.1 en.2 false hhead
      refine ⟨e, ?_⟩
      simp only [fpCount]
      rw [he]
    · cases hres : onResult en.1 en.2 false with
      | error e =>
        refine ⟨e, ?_⟩
        simp only [fpCount]
        rw [hres]
      | ok pr2 =>
        have hbadrest : bad ∈ rest := by
          cases hmem with
          | head => exact absurd hfail hhead
          | tail _ h => exact h
        obtain ⟨e, he⟩ := ih ⟨bad, hbadrest, hfail⟩
        refine ⟨e, ?_⟩
        simp only [fpCount]
        rw [hres, he]

theorem fpCollect_ok_split {A : Type}
    (onResult : StoreKey → StoreValue → Bool → Except QueryError (Bool × Option A))
    (Hgood : ∀ k v acc res, onResult k v acc = Except.ok res → isDecodeFail v = false) :
    ∀ (l : Store) (n : Nat) (items : List A) (nextKey : StoreKey) (rem : Store),
    fpCollect onResult n l = Except.ok (items, nextKey, rem) →
    ∃ pre, l = pre ++ rem ∧ ∀ en ∈ pre, isDecodeFail en.2 = false := by
  intro l
  induction l with
  | nil =>
    intro n items nextKey rem h
    simp only [fpCollect] at h
    cases h
    exact ⟨[], by simp⟩
  | cons en rest ih =>
    intro n items nextKey rem h
    cases n with
    | zero =>
      simp only [fpCollect] at h
      cases h
      exact ⟨[], by simp⟩
    | succ m =>
      simp only [fpCollect] at h
      cases hres : onResult en.1 en.2 true with
      | error e => rw [hres] at h; cases h
      | ok pr2 =>
        rw [hres] at h
        obtain ⟨hit, item⟩ := pr2
        dsimp only at h
        cases hrec : fpCollect onResult (if hit then m else m + 1) rest with
        | error e => rw [hrec] at h; cases h
        | ok trip =>
          obtain ⟨items', nextKey', rem'⟩ := trip
          rw [hrec] at h
          cases h
          obtain ⟨pre, hpre, hgoodpre⟩ := ih _ _ _ _ hrec
          refine ⟨en :: pre, by rw [List.cons_append, ← hpre], ?_⟩
          intro x hx
          cases hx with
          | head => exact Hgood en.1 en.2 true (hit, item) hres
          | tail _ hxs => exact hgoodpre x hxs

theorem fpCollect_ok_all {A : Type}
    (onResult : StoreKey → StoreValue → Bool → Except QueryError (Bool × Option A))
    (viewF : StoreKey × StoreValue → A) :
    ∀ (l : Store) (n : Nat),
    (∀ en ∈ l, onResult en.1 en.2 true = Except.ok (true, some (viewF en))) →
    l.length ≤ n →
    fpCollect onResult n l = Except.ok (l.map viewF, [], []) := by
  intro l
  induction l with
  | nil => intro n _ _; cases n <;> rfl
  | cons en rest ih =>
    intro n Hv hn
    cases n with
    | zero => simp at hn
    | succ m =>
      have hres := Hv en (by simp)
      have hrec := ih m (fun x hx => Hv x (List.mem_cons_of_mem en hx))
        (by simpa [Nat.succ_le_succ_iff] using hn)
      simp only [fpCollect]
      rw [hres]
      dsimp only
      rw [if_pos rfl, hrec]
      simp [Option.toList]

theorem FilteredPaginate_err {A : Type}
    (onResult : StoreKey → StoreValue → Bool → Except QueryError (Bool × Option A))
    (Herr : ∀ k v acc, isDecodeFail v = true → ∃ e, onResult k v acc = Except.error e)
    (Hhit : ∀ k v hit item, onResult k v true = Except.ok (hit, item) → hit = true)
    (Hgood : ∀ k v acc res, onResult k v acc = Except.ok res → isDecodeFail v = false) :
    ∀ (entries : Store) (req : Option PageRequest),
    (∃ en ∈ visitedEntries entries req, isDecodeFail en.2 = true) →
    ∃ e, FilteredPaginate onResult entries req = Except.error e := by
  intro entries req hbad
  simp only [FilteredPaginate]
  cases hct : (req.getD ⟨[], 0, false, false⟩).countTotal with
  | false =>
    simp only [visitedEntries, hct, Bool.false_eq_true, if_false] at hbad
    obtain ⟨e, he⟩ := fpCollect_err onResult Herr Hhit _ _ hbad
    rw [he]
    exact ⟨e, rfl⟩
  | true =>
    simp only [visitedEntries, hct, eq_self_iff_true, if_true] at hbad
    cases hcol : fpCollect onResult
        (if (req.getD ⟨[], 0, false, false⟩).limit = 0 then defaultLimit
          else (req.getD ⟨[], 0, false, false⟩).limit)
        (scopedEntries entries (req.getD ⟨[], 0, false, false⟩)) with
    | error e => exact ⟨e, rfl⟩
    | ok trip =>
      obtain ⟨items, nextKey, rem⟩ := trip
      obtain ⟨pre, hpre, hgoodpre⟩ := fpCollect_ok_split onResult Hgood _ _ _ _ _ hcol
      obtain ⟨bad, hmem, hfail⟩ := hbad
      have hbadrem : bad ∈ rem := by
        rw [hpre] at hmem
        rcases List.mem_append.mp hmem with hl | hr
        · exact absurd hfail (by rw [hgoodpre bad hl]; simp)
        · exact hr
      obtain ⟨e, he⟩ := fpCount_err onResult Herr rem ⟨bad, hbadrem, hfail⟩
      refine ⟨e, ?_⟩
      simp [he]

theorem FilteredPaginate_flat {A : Type}
    (onResult : StoreKey → StoreValue → Bool → Except QueryError (Bool × Option A))
    (viewF : StoreKey × StoreValue → A) (entries : Store) (req : Option PageRequest)
    (hkey : (req.getD ⟨[], 0, false, false⟩).key = [])
    (hrev : (req.getD ⟨[], 0, false, false⟩).reverse = false)
    (hct : (req.getD ⟨[], 0, false, false⟩).countTotal = false)
    (hlim : entries.length ≤ (if (req.getD ⟨[], 0, false, false⟩).limit = 0 then defaultLimit
      else (req.getD ⟨[], 0, false, false⟩).limit))
    (Hv : ∀ en ∈ entries, onResult en.1 en.2 true = Except.ok (true, some (viewF en))) :
    FilteredPaginate onResult entries req = Except.ok (entries.map viewF, ⟨[], none⟩) := by
  have hscope : scopedEntries entries (req.getD ⟨[], 0, false, false⟩) = entries := by
    simp [scopedEntries, hkey, hrev]
  simp only [FilteredPaginate, hscope]
  rw [fpCollect_ok_all onResult viewF entries _ Hv hlim]
  simp [hct]

theorem grantsOnResult_err (k : StoreKey) (v : StoreValue) (acc : Bool) :
    isDecodeFail v = true → ∃ e, grantsOnResult k v acc = Except.error e := by
  intro h
  cases v with
  | good g => simp [isDecodeFail, unmarshalAuthorization] at h
  | corrupt => exact ⟨.decodeFailure "unmarshal failed", rfl⟩

theorem grantsOnResult_hit (k : StoreKey) (v : StoreValue) (hit : Bool) (item : Option GrantView) :
    grantsOnResult k v true = Except.ok (hit, item) → hit = true := by
  intro h
  cases v with
  | good g =>
    simp [grantsOnResult, unmarshalAuthorization] at h
    exact h.1
  | corrupt => simp [grantsOnResult, unmarshalAuthorization] at h

theorem grantsOnResult_good (k : StoreKey) (v : StoreValue) (acc : Bool) (res : Bool × Option GrantView) :
    grantsOnResult k v acc = Except.ok res → isDecodeFail v = false := by
  intro h
  cases v with
  | good g => rfl
  | corrupt => simp [grantsOnResult, unmarshalAuthorization] at h

theorem grantsOnResult_view (k : StoreKey) (v : StoreValue) :
    isDecodeFail v = false → grantsOnResult k v true = Except.ok (true, some (grantViewOf (k, v))) := by
  intro h
  cases v with
  | good g => rfl
  | corrupt => simp [isDecodeFail, unmarshalAuthorization] at h

theorem grantAuthOnResult_err (k : StoreKey) (v : StoreValue) (acc : Bool) :
    isDecodeFail v = true → ∃ e, grantAuthOnResult k v acc = Except.error e := by
  intro h
  cases v with
  | good g => simp [isDecodeFail, unmarshalAuthorization] at h
  | corrupt => exact ⟨.decodeFailure "unmarshal failed", rfl⟩

theorem grantAuthOnResult_hit (k : StoreKey) (v : StoreValue) (hit : Bool)
    (item : Option GrantAuthorizationView) :
    grantAuthOnResult k v true = Except.ok (hit, item) → hit = true := by
  intro h
  cases v with
  | good g =>
    simp [grantAuthOnResult, unmarshalAuthorization] at h
    exact h.1
  | corrupt => simp [grantAuthOnResult, unmarshalAuthorization] at h

theorem grantAuthOnResult_good (k : StoreKey) (v : StoreValue) (acc : Bool)
    (res : Bool × Option GrantAuthorizationView) :
    grantAuthOnResult k v acc = Except.ok res → isDecodeFail v = false := by
  intro h
  cases v with
  | good g => rfl
  | corrupt => simp [grantAuthOnResult, unmarshalAuthorization] at h

theorem grantAuthOnResult_view (k : StoreKey) (v : StoreValue) :
    isDecodeFail v = false →
    grantAuthOnResult k v true = Except.ok (true, some (grantAuthViewOf (k, v))) := by
  intro h
  cases v with
  | good g => rfl
  | corrupt => simp [isDecodeFail, unmarshalAuthorization] at h

theorem Grants_scan_err (st : Store) (now : Nat) (r : QueryGrantsRequest) (R G : Addr)
    (hm : r.msgTypeUrl = "")
    (hgr : AccAddressFromBech32 r.granter = .ok R)
    (hge : AccAddressFromBech32 r.grantee = .ok G)
    (hbad : ∃ en ∈ visitedEntries (prefixEntries st (grantStoreKey G R "")) r.pagination,
      isDecodeFail en.2 = true) :
    ∃ err, Grants st now (some r) = .error err := by
  obtain ⟨e, he⟩ := FilteredPaginate_err grantsOnResult grantsOnResult_err grantsOnResult_hit
    grantsOnResult_good _ _ hbad
  refine ⟨e, ?_⟩
  simp only [Grants, GrantsRun, hgr, hge]
  rw [if_neg (by simp [hm])]
  simp only [he]

theorem IssuedGrants_scan_err (st : Store) (ri : QueryIssuedGrantsRequest) (R : Addr)
    (hgr : AccAddressFromBech32 ri.granter = .ok R)
    (hbad : ∃ en ∈ visitedEntries (prefixEntries st (grantStoreKey [] R "")) ri.pagination,
      isDecodeFail en.2 = true) :
    ∃ err, IssuedGrants st (some ri) = .error err := by
  obtain ⟨e, he⟩ := FilteredPaginate_err grantAuthOnResult grantAuthOnResult_err
    grantAuthOnResult_hit grantAuthOnResult_good _ _ hbad
  refine ⟨e, ?_⟩
  simp only [IssuedGrants, IssuedGrantsRun, hgr, he]

theorem ReceivedGrants_scan_err (st : Store) (rr : QueryReceivedGrantsRequest) (G : Addr)
    (hge : AccAddressFromBech32 rr.grantee = .ok G)
    (hbad : ∃ en ∈ visitedEntries (prefixEntries st (grantStoreKey G [] "")) rr.pagination,
      isDecodeFail en.2 = true) :
    ∃ err, ReceivedGrants st (some rr) = .error err := by
  obtain ⟨e, he⟩ := FilteredPaginate_err grantAuthOnResult grantAuthOnResult_err
    grantAuthOnResult_hit grantAuthOnResult_good _ _ hbad
  refine ⟨e, ?_⟩
  simp only [ReceivedGrants, ReceivedGrantsRun, hge, he]

/-- C4: for every scan-based query (`Grants` with empty `MsgTypeUrl`,
`IssuedGrants`, `ReceivedGrants`), if any visited record fails to
deserialize the whole operation returns an error — an `Except.error` with
no response value, hence no partial list of grants and no pagination
metadata. -/
theorem scan_decode_error_aborts : ∀ (st : Store) (now : Nat) (r : QueryGrantsRequest)
    (ri : QueryIssuedGrantsRequest) (rr : QueryReceivedGrantsRequest) (R G RI GR : Addr),
    (r.msgTypeUrl = "" → AccAddressFromBech32 r.granter = .ok R →
      AccAddressFromBech32 r.grantee = .ok G →
      (∃ en ∈ visitedEntries (prefixEntries st (grantStoreKey G R "")) r.pagination,
        isDecodeFail en.2 = true) →
      ∃ err, Grants st now (some r) = .error err)
    ∧ (AccAddressFromBech32 ri.granter = .ok RI →
      (∃ en ∈ visitedEntries (prefixEntries st (grantStoreKey [] RI "")) ri.pagination,
        isDecodeFail en.2 = true) →
      ∃ err, IssuedGrants st (some ri) = .error err)
    ∧ (AccAddressFromBech32 rr.grantee = .ok GR →
      (∃ en ∈ visitedEntries (prefixEntries st (grantStoreKey GR [] "")) rr.pagination,
        isDecodeFail en.2 = true) →
      ∃ err, ReceivedGrants st (some rr) = .error err) := by
  intro st now r ri rr R G RI GR
  refine ⟨?_, ?_, ?_⟩
  · intro hm hgr hge hbad
    exact Grants_scan_err st now r R G hm hgr hge hbad
  · intro hgr hbad
    exact IssuedGrants_scan_err st ri RI hgr hbad
  · intro hge hbad
    exact ReceivedGrants_scan_err st rr GR hge hbad

/-- C4 witness: the abort theorem instantiated at a concrete store holding corrupt records under all three scan prefixes. -/
theorem scan_decode_error_aborts_witness :
    (∃ err, Grants
      [(grantStoreKey [97] [98] "m", .corrupt), (grantStoreKey [98] [99] "x", .corrupt)] 0
      (some ⟨"b", "a", "", none⟩) = .error err)
    ∧ (∃ err, IssuedGrants
      [(grantStoreKey [97] [98] "m", .corrupt), (grantStoreKey [98] [99] "x", .corrupt)]
      (some ⟨"b", none⟩) = .error err)
    ∧ (∃ err, ReceivedGrants
      [(grantStoreKey [97] [98] "m", .corrupt), (grantStoreKey [98] [99] "x", .corrupt)]
      (some ⟨"a", none⟩) = .error err) := by
  obtain ⟨h1, h2, h3⟩ := scan_decode_error_aborts
    [(grantStoreKey [97] [98] "m", .corrupt), (grantStoreKey [98] [99] "x", .corrupt)] 0
    ⟨"b", "a", "", none⟩ ⟨"b", none⟩ ⟨"a", none⟩ [98] [97] [98] [97]
  exact ⟨h1 rfl rfl rfl (by decide), h2 rfl (by decide), h3 rfl (by decide)⟩

theorem visitedEntries_countTotal (entries : Store) (lim : Nat) :
    visitedEntries entries (some ⟨[], lim, true, false⟩) = entries := by
  simp [visitedEntries, scopedEntries]

/-- C10: in all three scan paths every visited record is deserialized
before the accumulate flag is consulted — the callbacks fail on an
undecodable value for either value of the flag — so with count-total
requested, a single undecodable record positioned after the requested page
(visited only to be counted, never accumulated) still makes the whole
query return an error. -/
theorem decode_before_accumulate : ∀ (st : Store) (now : Nat) (k : StoreKey) (v : StoreValue) (acc : Bool)
    (lim : Nat) (rs es gs hs : String) (R G RI GR : Addr),
    (isDecodeFail v = true →
      (∃ e, grantsOnResult k v acc = .error e) ∧ (∃ e, grantAuthOnResult k v acc = .error e))
    ∧ (AccAddressFromBech32 rs = .ok R → AccAddressFromBech32 es = .ok G →
      (∃ en ∈ (prefixEntries st (grantStoreKey G R "")).drop lim, isDecodeFail en.2 = true) →
      ∃ err, Grants st now (some ⟨rs, es, "", some ⟨[], lim, true, false⟩⟩) = .error err)
    ∧ (AccAddressFromBech32 gs = .ok RI →
      (∃ en ∈ (prefixEntries st (grantStoreKey [] RI "")).drop lim, isDecodeFail en.2 = true) →
      ∃ err, IssuedGrants st (some ⟨gs, some ⟨[], lim, true, false⟩⟩) = .error err)
    ∧ (AccAddressFromBech32 hs = .ok GR →
      (∃ en ∈ (prefixEntries st (grantStoreKey GR [] "")).drop lim, isDecodeFail en.2 = true) →
      ∃ err, ReceivedGrants st (some ⟨hs, some ⟨[], lim, true, false⟩⟩) = .error err) := by
  intro st now k v acc lim rs es gs hs R G RI GR
  refine ⟨?_, ?_, ?_, ?_⟩
  · intro h
    exact ⟨grantsOnResult_err k v acc h, grantAuthOnResult_err k v acc h⟩
  · intro hgr hge hbad
    obtain ⟨bad, hmem, hfail⟩ := hbad
    refine Grants_scan_err st now ⟨rs, es, "", some ⟨[], lim, true, false⟩⟩ R G rfl hgr hge ?_
    rw [visitedEntries_countTotal]
    exact ⟨bad, (List.drop_sublist lim _).subset hmem, hfail⟩
  · intro hgr hbad
    obtain ⟨bad, hmem, hfail⟩ := hbad
    refine IssuedGrants_scan_err st ⟨gs, some ⟨[], lim, true, false⟩⟩ RI hgr ?_
    rw [visitedEntries_countTotal]
    exact ⟨bad, (List.drop_sublist lim _).subset hmem, hfail⟩
  · intro hge hbad
    obtain ⟨bad, hmem, hfail⟩ := hbad
    refine ReceivedGrants_scan_err st ⟨hs, some ⟨[], lim, true, false⟩⟩ GR hge ?_
    rw [visitedEntries_countTotal]
    exact ⟨bad, (List.drop_sublist lim _).subset hmem, hfail⟩

/-- C10 witness: the theorem instantiated at a concrete store where each scan scope holds one good record followed by one corrupt record beyond the limit-1 page. -/
theorem decode_before_accumulate_witness :
    (∃ e, grantsOnResult [] .corrupt false = .error e)
    ∧ (∃ e, grantAuthOnResult [] .corrupt false = .error e)
    ∧ (∃ err, Grants
      [(grantStoreKey [97] [98] "m", .good ⟨⟨"one"⟩, none⟩), (grantStoreKey [97] [98] "n", .corrupt),
       (grantStoreKey [98] [99] "x", .good ⟨⟨"one"⟩, none⟩), (grantStoreKey [98] [99] "y", .corrupt)] 0
      (some ⟨"b", "a", "", some ⟨[], 1, true, false⟩⟩) = .error err)
    ∧ (∃ err, IssuedGrants
      [(grantStoreKey [97] [98] "m", .good ⟨⟨"one"⟩, none⟩), (grantStoreKey [97] [98] "n", .corrupt),
       (grantStoreKey [98] [99] "x", .good ⟨⟨"one"⟩, none⟩), (grantStoreKey [98] [99] "y", .corrupt)]
      (some ⟨"b", some ⟨[], 1, true, false⟩⟩) = .error err)
    ∧ (∃ err, ReceivedGrants
      [(grantStoreKey [97] [98] "m", .good ⟨⟨"one"⟩, none⟩), (grantStoreKey [97] [98] "n", .corrupt),
       (grantStoreKey [98] [99] "x", .good ⟨⟨"one"⟩, none⟩), (grantStoreKey [98] [99] "y", .corrupt)]
      (some ⟨"a", some ⟨[], 1, true, false⟩⟩) = .error err) := by
  obtain ⟨h1, h2, h3, h4⟩ := decode_before_accumulate
    [(grantStoreKey [97] [98] "m", .good ⟨⟨"one"⟩, none⟩), (grantStoreKey [97] [98] "n", .corrupt),
     (grantStoreKey [98] [99] "x", .good ⟨⟨"one"⟩, none⟩), (grantStoreKey [98] [99] "y", .corrupt)]
    0 [] .corrupt false 1 "b" "a" "b" "a" [98] [97] [98] [97]
  obtain ⟨ha, hb⟩ := h1 rfl
  exact ⟨ha, hb, h2 rfl rfl (by decide), h3 rfl (by decide), h4 rfl (by decide)⟩

theorem kvGet_mem (st : Store) (k : StoreKey) (v : StoreValue) :
    kvGet st k = some v → (k, v) ∈ st := by
  intro h
  simp only [kvGet] at h
  cases hf : st.find? (fun e => e.1 == k) with
  | none => rw [hf] at h; cases h
  | some en =>
    rw [hf] at h
    cases h
    have hmem := List.mem_of_find?_eq_some hf
    have hpred := List.find?_some hf
    have hk : en.1 = k := by simpa using hpred
    have : (k, en.2) = en := by rw [← hk]
    rw [this]
    exact hmem

theorem grantStoreKey_prefix_of_type (G R : Addr) (T : String) :
    (grantStoreKey G R "").isPrefixOf (grantStoreKey G R T) = true := by
  have h : grantStoreKey G R T = grantStoreKey G R "" ++ strBytes T := by
    simp [grantStoreKey, strBytes]
  rw [h, List.isPrefixOf_iff_prefix]
  exact List.prefix_append _ _

/-- C2: for a stored grant whose expiration is set and is not after the
query's reference time, the exact-match path of `Grants` (non-empty
`MsgTypeUrl`) returns NotFound, while the prefix-scan path of `Grants`
(empty `MsgTypeUrl`) over the same store state still includes that grant's
record in its result list. -/
theorem grants_expiration_gating : ∀ (st : Store) (now : Nat) (rs es T : String) (R G : Addr) (g : Grant) (e : Nat),
    AccAddressFromBech32 rs = .ok R → AccAddressFromBech32 es = .ok G →
    T ≠ "" →
    kvGet st (grantStoreKey G R T) = some (.good g) →
    g.expiration = some e → e ≤ now →
    (∀ en ∈ prefixEntries st (grantStoreKey G R ""), isDecodeFail en.2 = false) →
    (prefixEntries st (grantStoreKey G R "")).length ≤ defaultLimit →
    Grants st now (some ⟨rs, es, T, none⟩) =
      .error (.notFound ("no authorization found for " ++ T ++ " type"))
    ∧ ∃ resp, Grants st now (some ⟨rs, es, "", none⟩) = .ok resp
        ∧ (⟨g.authorization, g.expiration⟩ : GrantView) ∈ resp.grants := by
  intro st now rs es T R G g e hgr hge hT hget hexp hle hgood hlen
  constructor
  · have hclean : GetCleanAuthorization st now G R T = none := by
      simp only [GetCleanAuthorization, hget, unmarshalAuthorization, hexp]
      rw [if_pos hle]
    simp only [Grants, GrantsRun, hgr, hge]
    rw [if_pos hT]
    simp only [hclean]
  · have hscan : FilteredPaginate grantsOnResult (prefixEntries st (grantStoreKey G R "")) none =
        Except.ok ((prefixEntries st (grantStoreKey G R "")).map grantViewOf, ⟨[], none⟩) := by
      refine FilteredPaginate_flat grantsOnResult grantViewOf _ none rfl rfl rfl ?_ ?_
      · simpa [defaultLimit] using hlen
      · intro en hen
        exact grantsOnResult_view en.1 en.2 (hgood en hen)
    refine ⟨⟨(prefixEntries st (grantStoreKey G R "")).map grantViewOf, some ⟨[], none⟩⟩, ?_, ?_⟩
    · simp only [Grants, GrantsRun, hgr, hge]
      rw [if_neg (by simp)]
      simp only [hscan]
    · have hmem : (grantStoreKey G R T, StoreValue.good g) ∈
          prefixEntries st (grantStoreKey G R "") := by
        rw [prefixEntries, List.mem_filter]
        exact ⟨kvGet_mem st _ _ hget, grantStoreKey_prefix_of_type G R T⟩
      have : grantViewOf (grantStoreKey G R T, StoreValue.good g) =
          (⟨g.authorization, g.expiration⟩ : GrantView) := rfl
      rw [← this]
      exact List.mem_map_of_mem grantViewOf hmem

/-- C2 witness: the expiration-gating theorem instantiated at a concrete one-grant store with expiration 5 and reference time 10. -/
theorem grants_expiration_gating_witness :
    Grants [(grantStoreKey [97] [98] "m", .good ⟨⟨"one"⟩, some 5⟩)] 10 (some ⟨"b", "a", "m", none⟩)
      = .error (.notFound ("no authorization found for " ++ "m" ++ " type"))
    ∧ ∃ resp, Grants [(grantStoreKey [97] [98] "m", .good ⟨⟨"one"⟩, some 5⟩)] 10
        (some ⟨"b", "a", "", none⟩) = .ok resp
      ∧ (⟨⟨"one"⟩, some 5⟩ : GrantView) ∈ resp.grants := by
  exact grants_expiration_gating [(grantStoreKey [97] [98] "m", .good ⟨⟨"one"⟩, some 5⟩)] 10 "b" "a" "m"
    [98] [97] ⟨⟨"one"⟩, some 5⟩ 5 rfl rfl (by decide) rfl rfl (by decide) (by decide) (by decide)

theorem scopedEntries_basic (entries : Store) (cursor : StoreKey) :
    scopedEntries entries ⟨cursor, 1, false, false⟩ =
      (if cursor.isEmpty then entries
        else entries.dropWhile (fun e => keyLtb e.1 cursor)) := by
  simp [scopedEntries]

theorem scopedEntries_decomp (entries : Store) (cursor : StoreKey) :
    ∃ pre, entries = pre ++ scopedEntries entries ⟨cursor, 1, false, false⟩ := by
  rw [scopedEntries_basic]
  by_cases h : cursor.isEmpty
  · rw [if_pos h]; exact ⟨[], rfl⟩
  · rw [if_neg h]; exact dropWhile_suffix_exists _ entries

theorem FilteredPaginate_one {A : Type}
    (onResult : StoreKey → StoreValue → Bool → Except QueryError (Bool × Option A))
    (entries : Store) (cursor : StoreKey) :
    FilteredPaginate onResult entries (some ⟨cursor, 1, false, false⟩) =
      match fpCollect onResult 1 (scopedEntries entries ⟨cursor, 1, false, false⟩) with
      | .error err => .error err
      | .ok (items, nextKey, _rem) => .ok (items, ⟨nextKey, none⟩) := by
  cases h : fpCollect onResult 1 (scopedEntries entries ⟨cursor, 1, false, false⟩) with
  | error err =>
    simp only [FilteredPaginate, Option.getD_some]
    norm_num
    rw [h]
  | ok trip =>
    obtain ⟨items, nextKey, rem⟩ := trip
    simp only [FilteredPaginate, Option.getD_some]
    norm_num
    rw [h]

theorem pageWalk_ok {A : Type}
    (onResult : StoreKey → StoreValue → Bool → Except QueryError (Bool × Option A))
    (viewF : StoreKey × StoreValue → A) (entries : Store)
    (Hs : List.Pairwise (fun a b => keyLtb a.1 b.1 = true) entries)
    (Hne : ∀ en ∈ entries, en.1 ≠ [])
    (Hv : ∀ en ∈ entries, onResult en.1 en.2 true = Except.ok (true, some (viewF en))) :
    ∀ (suf : Store) (cursor : StoreKey) (fuel : Nat),
    scopedEntries entries ⟨cursor, 1, false, false⟩ = suf →
    suf.length + 1 ≤ fuel →
    pageWalk onResult entries fuel cursor = Except.ok (suf.map viewF) := by
  intro suf
  induction suf with
  | nil =>
    intro cursor fuel hscope hfuel
    obtain ⟨f, rfl⟩ : ∃ f, fuel = f + 1 := ⟨fuel - 1, by omega⟩
    have hcol : fpCollect onResult 1 (scopedEntries entries ⟨cursor, 1, false, false⟩)
        = Except.ok ([], [], []) := by rw [hscope]; rfl
    have hfp : FilteredPaginate onResult entries (some ⟨cursor, 1, false, false⟩)
        = Except.ok ([], ⟨[], none⟩) := by
      rw [FilteredPaginate_one, hcol]
    simp only [pageWalk, hfp]
    rfl
  | cons e rest ih =>
    intro cursor fuel hscope hfuel
    obtain ⟨f, rfl⟩ : ∃ f, fuel = f + 1 := ⟨fuel - 1, by omega⟩
    obtain ⟨pre, hdecomp⟩ := scopedEntries_decomp entries cursor
    rw [hscope] at hdecomp
    have hmem_e : e ∈ entries := by rw [hdecomp]; simp
    have hres := Hv e hmem_e
    cases rest with
    | nil =>
      have hcol : fpCollect onResult 1 (scopedEntries entries ⟨cursor, 1, false, false⟩)
          = Except.ok ([viewF e], [], []) := by
        rw [hscope]
        obtain ⟨k, v⟩ := e
        simp only [fpCollect]
        rw [hres]
        simp [Option.toList]
      have hfp : FilteredPaginate onResult entries (some ⟨cursor, 1, false, false⟩)
          = Except.ok ([viewF e], ⟨[], none⟩) := by
        rw [FilteredPaginate_one, hcol]
      simp only [pageWalk, hfp]
      rfl
    | cons e2 r =>
      have hmem_e2 : e2 ∈ entries := by rw [hdecomp]; simp
      have hcol : fpCollect onResult 1 (scopedEntries entries ⟨cursor, 1, false, false⟩)
          = Except.ok ([viewF e], e2.1, e2 :: r) := by
        rw [hscope]
        obtain ⟨k, v⟩ := e
        simp only [fpCollect]
        rw [hres]
        simp [fpCollect, Option.toList]
      have hfp : FilteredPaginate onResult entries (some ⟨cursor, 1, false, false⟩)
          = Except.ok ([viewF e], ⟨e2.1, none⟩) := by
        rw [FilteredPaginate_one, hcol]
      have hne2 : e2.1.isEmpty = false := by
        cases h2 : e2.1 with
        | nil => exact absurd h2 (Hne e2 hmem_e2)
        | cons x xs => rfl
      have hscope2 : scopedEntries entries ⟨e2.1, 1, false, false⟩ = e2 :: r := by
        rw [scopedEntries_basic, if_neg (by simp [hne2])]
        have hd : entries = (pre ++ [e]) ++ e2 :: r := by
          rw [hdecomp]; simp
        rw [hd]
        exact dropWhile_of_sorted e2 r (pre ++ [e]) (by rw [← hd]; exact Hs)
      have hrec := ih e2.1 f hscope2
        (by simp only [List.length_cons] at hfuel ⊢; omega)
      simp only [pageWalk, hfp]
      simp only [hne2, Bool.false_eq_true, if_false]
      rw [hrec]
      simp

theorem walk_eq_full_core {A : Type}
    (onResult : StoreKey → StoreValue → Bool → Except QueryError (Bool × Option A))
    (viewF : StoreKey × StoreValue → A) (st : Store) (pfx : StoreKey)
    (hsort : List.Pairwise (fun a b => keyLtb a.1 b.1 = true) st)
    (hne : ∀ en ∈ st, en.1 ≠ [])
    (hview : ∀ en ∈ prefixEntries st pfx,
      onResult en.1 en.2 true = Except.ok (true, some (viewF en))) :
    pageWalk onResult (prefixEntries st pfx) (st.length + 1) []
      = Except.ok ((prefixEntries st pfx).map viewF)
    ∧ FilteredPaginate onResult (prefixEntries st pfx) (some ⟨[], st.length + 1, false, false⟩)
      = Except.ok ((prefixEntries st pfx).map viewF, ⟨[], none⟩) := by
  have hsub : List.Sublist (prefixEntries st pfx) st := List.filter_sublist st
  have hsort' : List.Pairwise (fun a b => keyLtb a.1 b.1 = true) (prefixEntries st pfx) :=
    hsort.sublist hsub
  have hne' : ∀ en ∈ prefixEntries st pfx, en.1 ≠ [] :=
    fun en hen => hne en (hsub.subset hen)
  have hlen : (prefixEntries st pfx).length ≤ st.length := hsub.length_le
  constructor
  · refine pageWalk_ok onResult viewF (prefixEntries st pfx) hsort' hne' hview
      (prefixEntries st pfx) [] (st.length + 1) ?_ (by omega)
    rw [scopedEntries_basic]
    rfl
  · refine FilteredPaginate_flat onResult viewF _ (some ⟨[], st.length + 1, false, false⟩)
      rfl rfl rfl ?_ hview
    simp only [Option.getD_some]
    rw [if_neg (by omega)]
    omega

theorem Grants_scan_unfold (st : Store) (now : Nat) (rs es : String) (R G : Addr)
    (p : Option PageRequest)
    (hgr : AccAddressFromBech32 rs = .ok R) (hge : AccAddressFromBech32 es = .ok G) :
    Grants st now (some ⟨rs, es, "", p⟩) =
      match FilteredPaginate grantsOnResult (prefixEntries st (grantStoreKey G R "")) p with
      | .error err => .error err
      | .ok (items, pageRes) => .ok ⟨items, some pageRes⟩ := by
  simp only [Grants, GrantsRun, hgr, hge]
  rw [if_neg (by simp)]
  cases hfp : FilteredPaginate grantsOnResult (prefixEntries st (grantStoreKey G R "")) p with
  | error err => rfl
  | ok pr2 =>
    obtain ⟨items, pageRes⟩ := pr2
    rfl

theorem IssuedGrants_scan_unfold (st : Store) (rs : String) (R : Addr) (p : Option PageRequest)
    (hgr : AccAddressFromBech32 rs = .ok R) :
    IssuedGrants st (some ⟨rs, p⟩) =
      match FilteredPaginate grantAuthOnResult (prefixEntries st (grantStoreKey [] R "")) p with
      | .error err => .error err
      | .ok (items, pageRes) => .ok ⟨items, some pageRes⟩ := by
  simp only [IssuedGrants, IssuedGrantsRun, hgr]
  cases hfp : FilteredPaginate grantAuthOnResult (prefixEntries st (grantStoreKey [] R "")) p with
  | error err => rfl
  | ok pr2 =>
    obtain ⟨items, pageRes⟩ := pr2
    rfl

theorem ReceivedGrants_scan_unfold (st : Store) (es : String) (G : Addr) (p : Option PageRequest)
    (hge : AccAddressFromBech32 es = .ok G) :
    ReceivedGrants st (some ⟨es, p⟩) =
      match FilteredPaginate grantAuthOnResult (prefixEntries st (grantStoreKey G [] "")) p with
      | .error err => .error err
      | .ok (items, pageRes) => .ok ⟨items, some pageRes⟩ := by
  simp only [ReceivedGrants, ReceivedGrantsRun, hge]
  cases hfp : FilteredPaginate grantAuthOnResult (prefixEntries st (grantStoreKey G [] "")) p with
  | error err => rfl
  | ok pr2 =>
    obtain ⟨items, pageRes⟩ := pr2
    rfl

theorem GrantsPagesAux_eq (st : Store) (now : Nat) (rs es : String) (R G : Addr)
    (hgr : AccAddressFromBech32 rs = .ok R) (hge : AccAddressFromBech32 es = .ok G) :
    ∀ (fuel : Nat) (cursor : StoreKey),
    GrantsPagesAux st now rs es fuel cursor =
      pageWalk grantsOnResult (prefixEntries st (grantStoreKey G R "")) fuel cursor := by
  intro fuel
  induction fuel with
  | zero => intro cursor; rfl
  | succ f ih =>
    intro cursor
    simp only [GrantsPagesAux, pageWalk,
      Grants_scan_unfold st now rs es R G (some ⟨cursor, 1, false, false⟩) hgr hge]
    cases hfp : FilteredPaginate grantsOnResult (prefixEntries st (grantStoreKey G R ""))
        (some ⟨cursor, 1, false, false⟩) with
    | error err => rfl
    | ok pr2 =>
      obtain ⟨items, pageRes⟩ := pr2
      dsimp only
      by_cases hie : pageRes.nextKey.isEmpty = true
      · rw [if_pos hie, if_pos hie]
      · rw [if_neg hie, if_neg hie, ih]
        cases pageWalk grantsOnResult (prefixEntries st (grantStoreKey G R "")) f
          pageRes.nextKey <;> rfl

theorem IssuedGrantsPagesAux_eq (st : Store) (rs : String) (R : Addr)
    (hgr : AccAddressFromBech32 rs = .ok R) :
    ∀ (fuel : Nat) (cursor : StoreKey),
    IssuedGrantsPagesAux st rs fuel cursor =
      pageWalk grantAuthOnResult (prefixEntries st (grantStoreKey [] R "")) fuel cursor := by
  intro fuel
  induction fuel with
  | zero => intro cursor; rfl
  | succ f ih =>
    intro cursor
    simp only [IssuedGrantsPagesAux, pageWalk,
      IssuedGrants_scan_unfold st rs R (some ⟨cursor, 1, false, false⟩) hgr]
    cases hfp : FilteredPaginate grantAuthOnResult (prefixEntries st (grantStoreKey [] R ""))
        (some ⟨cursor, 1, false, false⟩) with
    | error err => rfl
    | ok pr2 =>
      obtain ⟨items, pageRes⟩ := pr2
      dsimp only
      by_cases hie : pageRes.nextKey.isEmpty = true
      · rw [if_pos hie, if_pos hie]
      · rw [if_neg hie, if_neg hie, ih]
        cases pageWalk grantAuthOnResult (prefixEntries st (grantStoreKey [] R "")) f
          pageRes.nextKey <;> rfl

theorem ReceivedGrantsPagesAux_eq (st : Store) (es : String) (G : Addr)
    (hge : AccAddressFromBech32 es = .ok G) :
    ∀ (fuel : Nat) (cursor : StoreKey),
    ReceivedGrantsPagesAux st es fuel cursor =
      pageWalk grantAuthOnResult (prefixEntries st (grantStoreKey G [] "")) fuel cursor := by
  intro fuel
  induction fuel with
  | zero => intro cursor; rfl
  | succ f ih =>
    intro cursor
    simp only [ReceivedGrantsPagesAux, pageWalk,
      ReceivedGrants_scan_unfold st es G (some ⟨cursor, 1, false, false⟩) hge]
    cases hfp : FilteredPaginate grantAuthOnResult (prefixEntries st (grantStoreKey G [] ""))
        (some ⟨cursor, 1, false, false⟩) with
    | error err => rfl
    | ok pr2 =>
      obtain ⟨items, pageRes⟩ := pr2
      dsimp only
      by_cases hie : pageRes.nextKey.isEmpty = true
      · rw [if_pos hie, if_pos hie]
      · rw [if_neg hie, if_neg hie, ih]
        cases pageWalk grantAuthOnResult (prefixEntries st (grantStoreKey G [] "")) f
          pageRes.nextKey <;> rfl

/-- C7: pagination completeness.  For every store state (sorted keys, all
records decodable) and each scan-based query, repeatedly requesting pages
with limit 1 and passing each response's next-key as the next request's
cursor yields, concatenated in order, exactly the list produced by one
scan whose limit exceeds the store size — no duplicates, no omissions. -/
theorem pagination_completeness : ∀ (st : Store) (now : Nat) (rs es : String) (R G : Addr),
    AccAddressFromBech32 rs = .ok R → AccAddressFromBech32 es = .ok G →
    List.Pairwise (fun a b => keyLtb a.1 b.1 = true) st →
    (∀ en ∈ st, en.1 ≠ []) →
    (∀ en ∈ st, isDecodeFail en.2 = false) →
    GrantsPages st now rs es = GrantsFull st now rs es
    ∧ IssuedGrantsPages st rs = IssuedGrantsFull st rs
    ∧ ReceivedGrantsPages st es = ReceivedGrantsFull st es := by
  intro st now rs es R G hgr hge hsort hne hgood
  refine ⟨?_, ?_, ?_⟩
  · obtain ⟨hwalk, hflat⟩ := walk_eq_full_core grantsOnResult grantViewOf st
      (grantStoreKey G R "") hsort hne
      (fun en hen => grantsOnResult_view en.1 en.2 (hgood en ((List.filter_sublist st).subset hen)))
    rw [GrantsPages, GrantsPagesAux_eq st now rs es R G hgr hge, hwalk]
    rw [GrantsFull, Grants_scan_unfold st now rs es R G _ hgr hge, hflat]
  · obtain ⟨hwalk, hflat⟩ := walk_eq_full_core grantAuthOnResult grantAuthViewOf st
      (grantStoreKey [] R "") hsort hne
      (fun en hen => grantAuthOnResult_view en.1 en.2 (hgood en ((List.filter_sublist st).subset hen)))
    rw [IssuedGrantsPages, IssuedGrantsPagesAux_eq st rs R hgr, hwalk]
    rw [IssuedGrantsFull, IssuedGrants_scan_unfold st rs R _ hgr, hflat]
  · obtain ⟨hwalk, hflat⟩ := walk_eq_full_core grantAuthOnResult grantAuthViewOf st
      (grantStoreKey G [] "") hsort hne
      (fun en hen => grantAuthOnResult_view en.1 en.2 (hgood en ((List.filter_sublist st).subset hen)))
    rw [ReceivedGrantsPages, ReceivedGrantsPagesAux_eq st es G hge, hwalk]
    rw [ReceivedGrantsFull, ReceivedGrants_scan_unfold st es G _ hge, hflat]

/-- C7 witness: the completeness theorem instantiated at a concrete sorted three-grant store for all three queries. -/
theorem pagination_completeness_witness :
    GrantsPages [(grantStoreKey [97] [98] "m", .good ⟨⟨"one"⟩, none⟩),
      (grantStoreKey [97] [98] "n", .good ⟨⟨"two"⟩, some 9⟩),
      (grantStoreKey [98] [99] "m", .good ⟨⟨"three"⟩, none⟩)] 0 "b" "a"
      = GrantsFull [(grantStoreKey [97] [98] "m", .good ⟨⟨"one"⟩, none⟩),
      (grantStoreKey [97] [98] "n", .good ⟨⟨"two"⟩, some 9⟩),
      (grantStoreKey [98] [99] "m", .good ⟨⟨"three"⟩, none⟩)] 0 "b" "a"
    ∧ IssuedGrantsPages [(grantStoreKey [97] [98] "m", .good ⟨⟨"one"⟩, none⟩),
      (grantStoreKey [97] [98] "n", .good ⟨⟨"two"⟩, some 9⟩),
      (grantStoreKey [98] [99] "m", .good ⟨⟨"three"⟩, none⟩)] "b"
      = IssuedGrantsFull [(grantStoreKey [97] [98] "m", .good ⟨⟨"one"⟩, none⟩),
      (grantStoreKey [97] [98] "n", .good ⟨⟨"two"⟩, some 9⟩),
      (grantStoreKey [98] [99] "m", .good ⟨⟨"three"⟩, none⟩)] "b"
    ∧ ReceivedGrantsPages [(grantStoreKey [97] [98] "m", .good ⟨⟨"one"⟩, none⟩),
      (grantStoreKey [97] [98] "n", .good ⟨⟨"two"⟩, some 9⟩),
      (grantStoreKey [98] [99] "m", .good ⟨⟨"three"⟩, none⟩)] "a"
      = ReceivedGrantsFull [(grantStoreKey [97] [98] "m", .good ⟨⟨"one"⟩, none⟩),
      (grantStoreKey [97] [98] "n", .good ⟨⟨"two"⟩, some 9⟩),
      (grantStoreKey [98] [99] "m", .good ⟨⟨"three"⟩, none⟩)] "a" := by
  exact pagination_completeness [(grantStoreKey [97] [98] "m", .good ⟨⟨"one"⟩, none⟩),
    (grantStoreKey [97] [98] "n", .good ⟨⟨"two"⟩, some 9⟩),
    (grantStoreKey [98] [99] "m", .good ⟨⟨"three"⟩, none⟩)] 0 "b" "a" [98] [97]
    rfl rfl (by decide) (by decide) (by decide)

/-- C9 witness: the exact-match theorem instantiated at a concrete store and a concrete pagination request, with the singleton response checked. -/
theorem exact_match_ignores_pagination_witness :
    Grants [(grantStoreKey [97] [98] "m", .good ⟨⟨"one"⟩, none⟩)] 0
        (some ⟨"b", "a", "m", some ⟨[], 7, true, true⟩⟩)
      = Grants [(grantStoreKey [97] [98] "m", .good ⟨⟨"one"⟩, none⟩)] 0
        (some ⟨"b", "a", "m", none⟩)
    ∧ ((⟨[⟨⟨"one"⟩, none⟩], none⟩ : QueryGrantsResponse).grants.length = 1
      ∧ (⟨[⟨⟨"one"⟩, none⟩], none⟩ : QueryGrantsResponse).pagination = none) := by
  obtain ⟨h1, h2⟩ := exact_match_ignores_pagination [(grantStoreKey [97] [98] "m", .good ⟨⟨"one"⟩, none⟩)] 0
    ⟨"b", "a", "m", none⟩ (some ⟨[], 7, true, true⟩) (by decide)
  exact ⟨h1, h2 ⟨[⟨⟨"one"⟩, none⟩], none⟩ rfl⟩

/-- C5 witness: the amended validation theorem instantiated at concrete null requests and concrete malformed address strings, over a non-empty store. -/
theorem request_validation_errors_witness :
    Grants [(grantStoreKey [97] [98] "m", .good ⟨⟨"one"⟩, none⟩)] 0 none
      = .error (.invalidArgument "empty request")
    ∧ IssuedGrants [(grantStoreKey [97] [98] "m", .good ⟨⟨"one"⟩, none⟩)] none
      = .error (.invalidArgument "empty request")
    ∧ ReceivedGrants [(grantStoreKey [97] [98] "m", .good ⟨⟨"one"⟩, none⟩)] none
      = .error (.invalidArgument "empty request")
    ∧ Grants [(grantStoreKey [97] [98] "m", .good ⟨⟨"one"⟩, none⟩)] 0
        (some ⟨"BAD", "a", "m", none⟩) = .error (.bech32Failure "decoding bech32 failed")
    ∧ Grants [(grantStoreKey [97] [98] "m", .good ⟨⟨"one"⟩, none⟩)] 0
        (some ⟨"b", "", "m", none⟩) = .error (.bech32Failure "empty address string is not allowed")
    ∧ IssuedGrants [(grantStoreKey [97] [98] "m", .good ⟨⟨"one"⟩, none⟩)]
        (some ⟨"BAD", none⟩) = .error (.bech32Failure "decoding bech32 failed")
    ∧ ReceivedGrants [(grantStoreKey [97] [98] "m", .good ⟨⟨"one"⟩, none⟩)]
        (some ⟨"BAD", none⟩) = .error (.bech32Failure "decoding bech32 failed") := by
  obtain ⟨hnull, h1, h2, h3, h4⟩ := request_validation_errors
    [(grantStoreKey [97] [98] "m", .good ⟨⟨"one"⟩, none⟩)] 0
    ⟨"BAD", "a", "m", none⟩ ⟨"BAD", none⟩ ⟨"BAD", none⟩
    (.bech32Failure "decoding bech32 failed") (.bech32Failure "empty address string is not allowed")
    (.bech32Failure "decoding bech32 failed") (.bech32Failure "decoding bech32 failed")
  obtain ⟨hn1, hn2, hn3⟩ := hnull
  refine ⟨hn1, hn2, hn3, h1 rfl, ?_, h3 rfl, h4 rfl⟩
  obtain ⟨hnull', h1', h2', h3', h4'⟩ := request_validation_errors
    [(grantStoreKey [97] [98] "m", .good ⟨⟨"one"⟩, none⟩)] 0
    ⟨"b", "", "m", none⟩ ⟨"BAD", none⟩ ⟨"BAD", none⟩
    (.bech32Failure "decoding bech32 failed") (.bech32Failure "empty address string is not allowed")
    (.bech32Failure "decoding bech32 failed") (.bech32Failure "decoding bech32 failed")
  exact h2' [98] rfl rfl

/-- C6 witness: the round-trip theorem instantiated at concrete addresses of different lengths and a non-ASCII type string. -/
theorem grantStoreKey_roundTrip_witness :
    ([97, 98] ≠ ([] : Addr) ∧ [99] ≠ ([] : Addr))
    ∧ addressesFromGrantStoreKey (grantStoreKey [97, 98] [99] "μm") = ([97, 98], [99]) := by
  exact ⟨⟨by decide, by decide⟩,
    grantStoreKey_roundTrip [97, 98] [99] "μm" (by decide) (by decide) (by decide) (by decide)⟩
